import Mathlib

/-!
Shallow embedding of the STM image-synthesis pipeline of
`src/py4vasp/calculation/_partial_charge.py`.

Real numbers of the Python code are modelled by `ℚ` (exact arithmetic);
grid indices by `ℕ`; fallible code by `Except StmError`.

External library calls (scipy's `gaussian_filter`, `gaussian_filter1d` and
`CubicSpline`) are not part of this repository; they are modelled
parametrically: Gaussian smoothing as convolution with an arbitrary finite
kernel with periodic (wrap) indexing — scipy's kernels are normalized so
their weights sum to 1, which appears as a hypothesis where needed — and
the cubic-spline interpolant of a z-column as an arbitrary function
`splineOf : (ℕ → ℚ) → ℚ → ℚ` of the column.
-/

namespace PartialChargeStm

/-- Error taxonomy of the spec for the raise sites of the code: the four
`ValueError`s, the `NameError` of the unbound loop variable, and the numpy
`IndexError` of an out-of-range array access. -/
inductive StmError where
  | geometryUnsupported
  | tipPlacement
  | dataUnavailable
  | invalidSelection
  | nameError
  | indexError
deriving DecidableEq

/-- Spin label "both" (also accepted by the code as the default). -/
def spin_both : String := "both"

/-- Spin label "up". -/
def spin_up : String := "up"

/-- Spin label "down". -/
def spin_down : String := "down"

/-- Data available to a `PartialCharge` instance: the (transposed) raw 6-D
array indexed by (x, y, z, spin-channel, band-position, kpoint-position),
the bands and kpoints label arrays, the FFT grid dimensions, and the
quantities obtained from the structure collaborator (lattice vectors,
extreme atomic z-coordinates, cell volume). -/
structure VaspData where
  nx : ℕ
  ny : ℕ
  nz : ℕ
  nspin : ℕ
  parchg : ℕ → ℕ → ℕ → ℕ → ℕ → ℕ → ℚ
  bands : List ℤ
  kpoints : List ℤ
  lv : Fin 3 → Fin 3 → ℚ
  maxZ : ℚ
  minZ : ℚ
  cellVolume : ℚ

/-- `_spin_polarized`: the raw array has two spin channels. -/
abbrev spinPolarized (d : VaspData) : Prop := d.nspin = 2

/-- `_check_band_index`: position of the requested band in the bands array
(`np.where(bands == band)[0][0]`, the first matching position); falls back
to position 0 with a warning (the `Bool`) when the index is absent but 0 is
present; otherwise the `ValueError` of the code (`DataUnavailable`). -/
def check_band_index (bands : List ℤ) (band : ℤ) : Except StmError (ℕ × Bool) :=
  if band ∈ bands then .ok (bands.findIdx (fun x => x == band), false)
  else if (0 : ℤ) ∈ bands then .ok (0, true)
  else .error .dataUnavailable

/-- `_check_kpoint_index`: identical logic for the kpoints array. -/
def check_kpoint_index (kpoints : List ℤ) (kpoint : ℤ) : Except StmError (ℕ × Bool) :=
  if kpoint ∈ kpoints then .ok (kpoints.findIdx (fun x => x == kpoint), false)
  else if (0 : ℤ) ∈ kpoints then .ok (0, true)
  else .error .dataUnavailable

/-- `to_array`: select one spin channel of the raw density at the resolved
band/k-point positions.  The band index is resolved first, then the k-point
index, mirroring the statement order of the code. -/
def to_array (d : VaspData) (band kpoint : ℤ) (spin : String) :
    Except StmError (ℕ → ℕ → ℕ → ℚ) :=
  match check_band_index d.bands band with
  | .error e => .error e
  | .ok bw =>
    match check_kpoint_index d.kpoints kpoint with
    | .error e => .error e
    | .ok kw =>
      let b := bw.1
      let k := kw.1
      if spinPolarized d then
        if spin = "both" then .ok fun x y z => d.parchg x y z 0 b k
        else if spin = "up" then
          .ok fun x y z => (d.parchg x y z 0 b k + d.parchg x y z 1 b k) / 2
        else if spin = "down" then
          .ok fun x y z => (d.parchg x y z 0 b k - d.parchg x y z 1 b k) / 2
        else .error .invalidSelection
      else .ok fun x y z => d.parchg x y z 0 b k

/-- `_check_z_orth`: the four off-diagonal couplings must vanish. -/
def check_z_orth (lv : Fin 3 → Fin 3 → ℚ) : Except StmError Unit :=
  if lv 0 2 ≠ 0 ∨ lv 1 2 ≠ 0 ∨ lv 2 0 ≠ 0 ∨ lv 2 1 ≠ 0 then
    .error .geometryUnsupported
  else .ok ()

/-- `_estimate_vacuum`: cell z-extent minus slab thickness. -/
def estimate_vacuum (d : VaspData) : ℚ := d.lv 2 2 - (d.maxZ - d.minZ)

/-- `_check_tip_height`: fails when the tip is strictly above half the
estimated vacuum. -/
def check_tip_height (d : VaspData) (tip : ℚ) : Except StmError Unit :=
  if estimate_vacuum d / 2 < tip then .error .tipPlacement else .ok ()

/-- `_correct_units`: divide by (number of grid points × cell volume). -/
def correct_units (d : VaspData) (chg : ℕ → ℕ → ℕ → ℚ) : ℕ → ℕ → ℕ → ℚ :=
  fun x y z => chg x y z / ((d.nx * d.ny * d.nz : ℚ) * d.cellVolume)

/-- A finite 3-D convolution kernel: offsets with weights. -/
abbrev Kernel3 := List ((ℤ × ℤ × ℤ) × ℚ)

/-- A finite 1-D convolution kernel: offsets with weights. -/
abbrev Kernel1 := List (ℤ × ℚ)

/-- Periodic (wrap mode) index: `(x + o) mod n`. -/
def wrapIdx (n : ℕ) (x : ℕ) (o : ℤ) : ℕ := (((x : ℤ) + o) % (n : ℤ)).toNat

/-- `_smooth_stm_data` (scipy `gaussian_filter`, `mode="wrap"`), modelled as
convolution with an arbitrary finite kernel and periodic indexing. -/
def smooth_stm_data (nx ny nz : ℕ) (ker : Kernel3) (data : ℕ → ℕ → ℕ → ℚ) :
    ℕ → ℕ → ℕ → ℚ :=
  fun x y z =>
    (ker.map fun e =>
      e.2 * data (wrapIdx nx x e.1.1) (wrapIdx ny y e.1.2.1) (wrapIdx nz z e.1.2.2)).sum

/-- `_get_stm_data`: guard that bands and kpoints both contain 0, then
unit-correct and smooth the selected channel. -/
def get_stm_data (d : VaspData) (spin : String) (ker : Kernel3) :
    Except StmError (ℕ → ℕ → ℕ → ℚ) :=
  if (0 : ℤ) ∉ d.bands ∨ (0 : ℤ) ∉ d.kpoints then .error .dataUnavailable
  else
    match to_array d 0 0 spin with
    | .error e => .error e
    | .ok chg => .ok (smooth_stm_data d.nx d.ny d.nz ker (correct_units d chg))

/-- Python `int()` on a rational: truncation toward zero. -/
def ratTrunc (q : ℚ) : ℤ := if q < 0 then ⌈q⌉ else ⌊q⌋

/-- `_z_index_for_height`: `int(height / lattice_vectors[2][2] * grid[2])`. -/
def z_index_for_height (d : VaspData) (h : ℚ) : ℤ :=
  ratTrunc (h / d.lv 2 2 * (d.nz : ℚ))

/-- A numpy integer access into an axis of length `n`: a negative index
wraps once from the end, and an index outside `[-n, n)` raises `IndexError`. -/
def npIndex (n : ℕ) (idx : ℤ) : Except StmError ℕ :=
  if 0 ≤ idx then
    if idx < (n : ℤ) then .ok idx.toNat else .error .indexError
  else
    if -(n : ℤ) ≤ idx then .ok (idx + (n : ℤ)).toNat else .error .indexError

/-- `_constant_height_stm` (data part): slice the smoothed volume at the
height index of (tip height + highest atomic z) and scale by the
enhancement factor.  The slice `smoothed_charge[i][j][z_index]` is a numpy
access: it raises `IndexError` when the index falls outside the grid (a
negative index wraps once), and it sits inside the double loop over x and
y, so it is only executed when the lateral grid is nonempty — for an empty
lateral grid the untouched `np.zeros` array is returned. -/
def constant_height_stm (d : VaspData) (smoothed : ℕ → ℕ → ℕ → ℚ) (tip enh : ℚ) :
    Except StmError (ℕ → ℕ → ℚ) :=
  if 0 < d.nx ∧ 0 < d.ny then
    match npIndex d.nz (z_index_for_height d (tip + d.maxZ)) with
    | .error e => .error e
    | .ok zi => .ok fun i j => smoothed i j zi * enh
  else .ok fun _ _ => 0

/-- `to_stm` in constant-height mode: geometry check, tip check, smoothed
data, then the constant-height scan. -/
def to_stm_constant_height (d : VaspData) (tip : ℚ) (spin : String)
    (ker : Kernel3) (enh : ℚ) : Except StmError (ℕ → ℕ → ℚ) :=
  match check_z_orth d.lv with
  | .error e => .error e
  | .ok _ =>
    match check_tip_height d tip with
    | .error e => .error e
    | .ok _ =>
      match get_stm_data d spin ker with
      | .error e => .error e
      | .ok sm => constant_height_stm d sm tip enh

/-- Sample points of `np.arange(z_start, 0, -1/interpolation_factor)`:
`z_start, z_start - 1/f, ...`, strictly positive, hence `z_start * f` of them. -/
def ccSamples (zstart f : ℕ) : List ℚ :=
  (List.range (zstart * f)).map fun i : ℕ => (zstart : ℚ) - (i : ℚ) / (f : ℚ)

/-- The inner `for k in ...: if spl(k) >= current: break` loop: the value of
`k` after the loop, `none` when the loop body never runs (then `k` is unbound
and the subsequent use raises `NameError`). -/
def ccLoop (spl : ℚ → ℚ) (current : ℚ) : List ℚ → Option ℚ
  | [] => none
  | [k] => some k
  | k :: k2 :: rest => if current ≤ spl k then some k else ccLoop spl current (k2 :: rest)

/-- The per-lateral-point constant-current scan value. -/
def ccScanPoint (spl : ℚ → ℚ) (current : ℚ) (zstart f : ℕ) : Option ℚ :=
  ccLoop spl current (ccSamples zstart f)

/-- Last element of a list of rationals, 0 for the empty list. -/
def lastD : List ℚ → ℚ
  | [] => 0
  | [k] => k
  | _ :: k2 :: rest => lastD (k2 :: rest)

/-- `np.mean(charge, axis=(0,1))`: average of one z-slice over x and y. -/
def xyMean (nx ny : ℕ) (chg : ℕ → ℕ → ℕ → ℚ) : ℕ → ℚ :=
  fun k => (∑ i ∈ Finset.range nx, ∑ j ∈ Finset.range ny, chg i j k) / (nx * ny : ℚ)

/-- One-dimensional wrap-mode convolution (scipy `gaussian_filter1d`,
`mode="wrap"`), modelled with an arbitrary finite kernel. -/
def smooth1d (n : ℕ) (ker : Kernel1) (f : ℕ → ℚ) : ℕ → ℚ :=
  fun k => (ker.map fun e => e.2 * f (wrapIdx n k e.1)).sum

/-- Accumulator loop for `argminQ`: current index, best index so far, best
value so far; a strictly smaller value replaces the best, so ties keep the
earliest index, as `np.argmin` does. -/
def argminAux : ℕ → ℕ → ℚ → List ℚ → ℕ
  | _, bi, _, [] => bi
  | i, bi, bv, x :: xs =>
    if x < bv then argminAux (i + 1) i x xs else argminAux (i + 1) bi bv xs

/-- `np.argmin`: first index attaining the minimum value, 0 for the empty list. -/
def argminQ : List ℚ → ℕ
  | [] => 0
  | x :: xs => argminAux 1 0 x xs

/-- `min_of_z_charge`: z-index of the minimum of the xy-averaged,
1-D-smoothed density. -/
def min_of_z_charge (nx ny nz : ℕ) (ker1 : Kernel1) (charge : ℕ → ℕ → ℕ → ℚ) : ℕ :=
  argminQ ((List.range nz).map (smooth1d nz ker1 (xyMean nx ny charge)))

/-- The double loop over the lateral grid of `_constant_current_stm`:
`none` models the `NameError` raised when the inner loop never binds `k`. -/
def constant_current_scan (nx ny : ℕ) (spl : ℕ → ℕ → ℚ → ℚ) (current : ℚ)
    (zstart f : ℕ) : Option (ℕ → ℕ → ℚ) :=
  if ∀ i < nx, ∀ j < ny, (ccScanPoint (spl i j) current zstart f).isSome = true
  then some fun i j => (ccScanPoint (spl i j) current zstart f).getD 0
  else none

/-- `np.min(cc_scan.flatten())` over the (nx × ny) scan. -/
def scanMin (nx ny : ℕ) (s : ℕ → ℕ → ℚ) : ℚ :=
  (((List.range nx).map fun i => (List.range ny).map fun j => s i j).flatten).foldl
    min (s 0 0)

/-- `_constant_current_stm` (data part): smoothed data, starting index from
`min_of_z_charge`, the per-point spline scan, and the final normalization
`cc_scan - np.min(cc_scan)`. -/
def constant_current_stm (d : VaspData) (ker : Kernel3) (ker1 : Kernel1)
    (splineOf : (ℕ → ℚ) → ℚ → ℚ) (current : ℚ) (f : ℕ) (spin : String) :
    Except StmError (ℕ → ℕ → ℚ) :=
  match get_stm_data d spin ker with
  | .error e => .error e
  | .ok sm =>
    let zstart := min_of_z_charge d.nx d.ny d.nz ker1 sm
    match constant_current_scan d.nx d.ny
        (fun i j => splineOf fun z => sm i j z) current zstart f with
    | some scan => .ok fun i j => scan i j - scanMin d.nx d.ny scan
    | none => .error .nameError

/-! ### Helper lemmas -/

/-- The loop value is the first sample satisfying the threshold, the last
sample when none does. -/
theorem ccLoop_eq_find (spl : ℚ → ℚ) (c : ℚ) :
    ∀ L : List ℚ, L ≠ [] →
      ccLoop spl c L = some ((L.find? fun k => decide (c ≤ spl k)).getD (lastD L)) := by
  intro L
  induction L with
  | nil => intro h; exact absurd rfl h
  | cons k rest ih =>
    intro _
    cases rest with
    | nil =>
      by_cases hc : c ≤ spl k <;> simp [ccLoop, List.find?, hc, lastD]
    | cons k2 rest2 =>
      by_cases hc : c ≤ spl k
      · simp [ccLoop, List.find?, hc]
      · have hrec := ih (by simp)
        have hstep : ccLoop spl c (k :: k2 :: rest2) = ccLoop spl c (k2 :: rest2) := by
          simp [ccLoop, hc]
        have hfind : List.find? (fun x => decide (c ≤ spl x)) (k :: k2 :: rest2)
            = List.find? (fun x => decide (c ≤ spl x)) (k2 :: rest2) :=
          List.find?_cons_of_neg _ (by simp [hc])
        have hlast : lastD (k :: k2 :: rest2) = lastD (k2 :: rest2) := rfl
        rw [hstep, hrec, hfind, hlast]

/-- The loop value is an element of the sample list. -/
theorem ccLoop_mem (spl : ℚ → ℚ) (c : ℚ) :
    ∀ L : List ℚ, ∀ r : ℚ, ccLoop spl c L = some r → r ∈ L := by
  intro L
  induction L with
  | nil => intro r h; simp [ccLoop] at h
  | cons k rest ih =>
    intro r h
    cases rest with
    | nil =>
      simp [ccLoop] at h
      simp [h]
    | cons k2 rest2 =>
      by_cases hc : c ≤ spl k
      · simp [ccLoop, hc] at h
        simp [h]
      · simp only [ccLoop, if_neg hc] at h
        exact List.mem_cons_of_mem _ (ih r h)

/-- Raising the threshold moves the loop value down a weakly decreasing
sample list. -/
theorem ccLoop_mono (spl : ℚ → ℚ) (c1 c2 : ℚ) (hc : c1 ≤ c2) :
    ∀ L : List ℚ, L.Pairwise (fun a b => b ≤ a) →
      ∀ r1 r2 : ℚ, ccLoop spl c1 L = some r1 → ccLoop spl c2 L = some r2 → r2 ≤ r1 := by
  intro L
  induction L with
  | nil => intro _ r1 r2 h1; simp [ccLoop] at h1
  | cons k rest ih =>
    intro hpw r1 r2 h1 h2
    cases rest with
    | nil =>
      simp [ccLoop] at h1 h2
      simp [← h1, ← h2]
    | cons k2 rest2 =>
      by_cases hck2 : c2 ≤ spl k
      · have hck1 : c1 ≤ spl k := le_trans hc hck2
        simp [ccLoop, hck1] at h1
        simp [ccLoop, hck2] at h2
        simp [← h1, ← h2]
      · simp only [ccLoop, if_neg hck2] at h2
        by_cases hck1 : c1 ≤ spl k
        · simp [ccLoop, hck1] at h1
          have hr2 : r2 ∈ k2 :: rest2 := ccLoop_mem spl c2 _ r2 h2
          have hle : ∀ x ∈ k2 :: rest2, x ≤ k := (List.pairwise_cons.mp hpw).1
          rw [← h1]
          exact hle r2 hr2
        · simp only [ccLoop, if_neg hck1] at h1
          exact ih (List.pairwise_cons.mp hpw).2 r1 r2 h1 h2

/-- The sample list is weakly decreasing. -/
theorem ccSamples_pairwise (zs f : ℕ) :
    (ccSamples zs f).Pairwise (fun a b => b ≤ a) := by
  have h1 : (List.range (zs * f)).Pairwise (· < ·) := List.pairwise_lt_range _
  unfold ccSamples
  apply List.Pairwise.map
  · intro a b hab
    have hab' : (a : ℚ) ≤ (b : ℚ) := by exact_mod_cast le_of_lt hab
    have hdiv : (a : ℚ) / (f : ℚ) ≤ (b : ℚ) / (f : ℚ) := by
      rcases Nat.eq_zero_or_pos f with hf | hf
      · simp [hf]
      · have hf' : (0 : ℚ) < (f : ℚ) := by exact_mod_cast hf
        gcongr
    linarith
  · exact h1

/-- Length of the sample list. -/
theorem ccSamples_length (zs f : ℕ) : (ccSamples zs f).length = zs * f := by
  rw [ccSamples, List.length_map, List.length_range]

/-- Nonempty sample list when `z_start` and the interpolation factor are positive. -/
theorem ccSamples_ne_nil (zs f : ℕ) (hzs : 0 < zs) (hf : 0 < f) :
    ccSamples zs f ≠ [] := by
  have : 0 < (ccSamples zs f).length := by
    rw [ccSamples_length]; exact Nat.mul_pos hzs hf
  exact List.ne_nil_of_length_pos this

/-- Identity 3-D kernel (weight 1 at offset 0). -/
def kerId3 : Kernel3 := [((0, 0, 0), 1)]

/-- Identity 1-D kernel (weight 1 at offset 0). -/
def kerId1 : Kernel1 := [(0, 1)]

/-- Selecting spin "both" succeeds whenever the band and k-point indices
resolve, in both the polarized and the non-polarized branch, and returns the
channel-0 slice at the resolved positions. -/
theorem to_array_both_ok (d : VaspData) (band kpoint : ℤ)
    (hb : band ∈ d.bands) (hk : kpoint ∈ d.kpoints) :
    to_array d band kpoint spin_both =
      .ok (fun x y z => d.parchg x y z 0 (d.bands.findIdx (fun v => v == band))
            (d.kpoints.findIdx (fun v => v == kpoint))) := by
  unfold to_array check_band_index check_kpoint_index
  rw [if_pos hb, if_pos hk]
  by_cases hsp : spinPolarized d
  · simp [hsp, spin_both]
  · simp [hsp]

/-- The smoothed STM data of the "both" channel when 0 is in both label arrays. -/
theorem get_stm_data_ok (d : VaspData) (ker : Kernel3)
    (hb : (0 : ℤ) ∈ d.bands) (hk : (0 : ℤ) ∈ d.kpoints) :
    get_stm_data d spin_both ker =
      .ok (smooth_stm_data d.nx d.ny d.nz ker (correct_units d
        (fun x y z => d.parchg x y z 0 (d.bands.findIdx (fun v => v == 0))
          (d.kpoints.findIdx (fun v => v == 0))))) := by
  unfold get_stm_data
  rw [if_neg (by push_neg; exact ⟨hb, hk⟩), to_array_both_ok d 0 0 hb hk]

/-- An in-bounds numpy access succeeds and returns the index itself. -/
theorem npIndex_ok (n : ℕ) (idx : ℤ) (h0 : 0 ≤ idx) (hlt : idx < (n : ℤ)) :
    npIndex n idx = .ok idx.toNat := by
  unfold npIndex
  rw [if_pos h0, if_pos hlt]

/-- The constant-height pipeline on the happy path: all checks pass, the
lateral grid is nonempty and the z-slice index is within the grid. -/
theorem to_stm_constant_height_ok (d : VaspData) (ker : Kernel3)
    (tip enh : ℚ) (sm : ℕ → ℕ → ℕ → ℚ)
    (hz : check_z_orth d.lv = .ok ()) (ht : check_tip_height d tip = .ok ())
    (hsm : get_stm_data d spin_both ker = .ok sm)
    (hg : 0 < d.nx ∧ 0 < d.ny)
    (h0 : 0 ≤ z_index_for_height d (tip + d.maxZ))
    (hlt : z_index_for_height d (tip + d.maxZ) < (d.nz : ℤ)) :
    to_stm_constant_height d tip spin_both ker enh =
      .ok (fun i j => sm i j (z_index_for_height d (tip + d.maxZ)).toNat * enh) := by
  have hnp := npIndex_ok d.nz _ h0 hlt
  simp only [to_stm_constant_height, hz, ht, hsm, constant_height_stm, if_pos hg, hnp]

/-- The constant-height pipeline with an empty lateral grid: the loop body
never runs, so no slice is taken and the zero scan is returned. -/
theorem to_stm_constant_height_empty (d : VaspData) (ker : Kernel3)
    (tip enh : ℚ) (sm : ℕ → ℕ → ℕ → ℚ)
    (hz : check_z_orth d.lv = .ok ()) (ht : check_tip_height d tip = .ok ())
    (hsm : get_stm_data d spin_both ker = .ok sm)
    (hg : ¬ (0 < d.nx ∧ 0 < d.ny)) :
    to_stm_constant_height d tip spin_both ker enh = .ok fun _ _ => 0 := by
  simp only [to_stm_constant_height, hz, ht, hsm, constant_height_stm, if_neg hg]

/-! ### Claim theorems -/

/-- C3: the geometry check accepts a 3×3 lattice-vector matrix iff the four
off-diagonal couplings `lv 0 2`, `lv 1 2`, `lv 2 0`, `lv 2 1` are all exactly
zero, and raises `GeometryUnsupported` when any one of them is nonzero. -/
theorem geometry_validation_iff (lv : Fin 3 → Fin 3 → ℚ) :
    (check_z_orth lv = .ok () ↔ lv 0 2 = 0 ∧ lv 1 2 = 0 ∧ lv 2 0 = 0 ∧ lv 2 1 = 0) ∧
    ((lv 0 2 ≠ 0 ∨ lv 1 2 ≠ 0 ∨ lv 2 0 ≠ 0 ∨ lv 2 1 ≠ 0) →
      check_z_orth lv = .error .geometryUnsupported) := by
  unfold check_z_orth
  by_cases h : lv 0 2 ≠ 0 ∨ lv 1 2 ≠ 0 ∨ lv 2 0 ≠ 0 ∨ lv 2 1 ≠ 0
  · rw [if_pos h]
    refine ⟨⟨fun hcontra => Except.noConfusion hcontra, fun hall => ?_⟩, fun _ => rfl⟩
    exact absurd hall (by tauto)
  · rw [if_neg h]
    push_neg at h
    exact ⟨⟨fun _ => h, fun _ => rfl⟩, fun hc => absurd hc (by tauto)⟩

/-- Witness for C3 at two concrete lattices. -/
theorem geometry_validation_iff_witness :
    check_z_orth (fun _ _ => 0) = .ok () ∧
    check_z_orth (fun _ _ => 1) = .error .geometryUnsupported :=
  ⟨(geometry_validation_iff (fun _ _ => 0)).1.mpr ⟨rfl, rfl, rfl, rfl⟩,
   (geometry_validation_iff (fun _ _ => 1)).2 (Or.inl one_ne_zero)⟩

/-- Centered slab refuting C2 as stated: cell z-extent 20 with atoms from
z = 5 to z = 15, so the estimated vacuum is 10 and a tip height of 5 passes
the tip check, but the slice index is `int((5+15)/20·2) = 2 = nz`, out of
the grid. -/
def dC2x : VaspData where
  nx := 1
  ny := 1
  nz := 2
  nspin := 1
  parchg := fun _ _ _ _ _ _ => 1
  bands := [0]
  kpoints := [0]
  lv := fun i j => if i = 2 ∧ j = 2 then 20 else 0
  maxZ := 15
  minZ := 5
  cellVolume := 1

/-- C2 as stated is false: for a slab centered at the cell midplane, the
constant-height call with tip height exactly half the estimated vacuum does
not succeed — the z-slice index equals nz and the numpy access raises
IndexError (not TipPlacementError). -/
theorem tip_height_boundary_counterexample :
    to_stm_constant_height dC2x (estimate_vacuum dC2x / 2) spin_both kerId3 1000
      = .error .indexError := by
  have hzo : check_z_orth dC2x.lv = .ok () := by simp [check_z_orth, dC2x]
  have hth : check_tip_height dC2x (estimate_vacuum dC2x / 2) = .ok () := by
    unfold check_tip_height
    rw [if_neg (lt_irrefl _)]
  have hsm := get_stm_data_ok dC2x kerId3 (by simp [dC2x]) (by simp [dC2x])
  have hidxZ : z_index_for_height dC2x (estimate_vacuum dC2x / 2 + dC2x.maxZ) = 2 := by
    norm_num [z_index_for_height, ratTrunc, estimate_vacuum, dC2x]
  have hnp : npIndex dC2x.nz
      (z_index_for_height dC2x (estimate_vacuum dC2x / 2 + dC2x.maxZ))
      = .error .indexError := by
    rw [hidxZ]
    norm_num [npIndex, dC2x]
  simp only [to_stm_constant_height, hzo, hth, hsm, constant_height_stm,
    if_pos (show 0 < dC2x.nx ∧ 0 < dC2x.ny by norm_num [dC2x]), hnp]

/-- C2 (amended): any tip height strictly greater than half the estimated
vacuum fails with the tip-placement error; a tip height exactly equal passes
the (strict) tip check, and the call then succeeds provided the resulting
z-slice index lies within the grid — for a slab centered at or above the
cell midplane that index reaches nz and the call raises IndexError instead. -/
theorem tip_height_boundary (d : VaspData) (ker : Kernel3) (enh : ℚ)
    (hz : check_z_orth d.lv = .ok ())
    (hb : (0 : ℤ) ∈ d.bands) (hk : (0 : ℤ) ∈ d.kpoints)
    (h0 : 0 ≤ z_index_for_height d (estimate_vacuum d / 2 + d.maxZ))
    (hlt : z_index_for_height d (estimate_vacuum d / 2 + d.maxZ) < (d.nz : ℤ)) :
    (∃ s, to_stm_constant_height d (estimate_vacuum d / 2) spin_both ker enh = .ok s) ∧
    (∀ tip : ℚ, estimate_vacuum d / 2 < tip →
      to_stm_constant_height d tip spin_both ker enh = .error .tipPlacement) := by
  have htip : check_tip_height d (estimate_vacuum d / 2) = .ok () := by
    unfold check_tip_height
    rw [if_neg (lt_irrefl _)]
  constructor
  · by_cases hg : 0 < d.nx ∧ 0 < d.ny
    · exact ⟨_, to_stm_constant_height_ok d ker (estimate_vacuum d / 2) enh _
        hz htip (get_stm_data_ok d ker hb hk) hg h0 hlt⟩
    · exact ⟨_, to_stm_constant_height_empty d ker (estimate_vacuum d / 2) enh _
        hz htip (get_stm_data_ok d ker hb hk) hg⟩
  · intro tip htgt
    have herr : check_tip_height d tip = .error .tipPlacement := by
      unfold check_tip_height
      rw [if_pos htgt]
    simp only [to_stm_constant_height, hz, herr]

/-- Concrete dataset for the C2 witness: a 1 Å thick slab at the bottom of a
cell of z-extent 10 Å (vacuum 9 Å), uniform density; the slice index at tip
height 4.5 is `int(1.1) = 1 < nz`. -/
def dC2 : VaspData where
  nx := 1
  ny := 1
  nz := 2
  nspin := 1
  parchg := fun _ _ _ _ _ _ => 1
  bands := [0]
  kpoints := [0]
  lv := fun i j => if i = 2 ∧ j = 2 then 10 else 0
  maxZ := 1
  minZ := 0
  cellVolume := 1

/-- Witness for the amended C2 at a concrete dataset. -/
theorem tip_height_boundary_witness :
    (∃ s, to_stm_constant_height dC2 (estimate_vacuum dC2 / 2) spin_both kerId3 1000
        = .ok s) ∧
    (∀ tip : ℚ, estimate_vacuum dC2 / 2 < tip →
      to_stm_constant_height dC2 tip spin_both kerId3 1000 = .error .tipPlacement) :=
  tip_height_boundary dC2 kerId3 1000 (by simp [check_z_orth, dC2])
    (by simp [dC2]) (by simp [dC2])
    (by norm_num [z_index_for_height, ratTrunc, estimate_vacuum, dC2])
    (by norm_num [z_index_for_height, ratTrunc, estimate_vacuum, dC2])

/-- C7: requested band/k-point index resolution: a present index resolves to
its first position in the label array (no warning); an absent index with 0
present resolves to position 0 with a warning; otherwise the call fails with
`DataUnavailable`.  The k-point resolution behaves identically. -/
theorem band_kpoint_index_resolution (arr : List ℤ) (b : ℤ) :
    (b ∈ arr → ∃ p, check_band_index arr b = .ok (p, false) ∧
        arr[p]? = some b ∧ ∀ q < p, arr[q]? ≠ some b) ∧
    (b ∉ arr → (0 : ℤ) ∈ arr → check_band_index arr b = .ok (0, true)) ∧
    (b ∉ arr → (0 : ℤ) ∉ arr → check_band_index arr b = .error .dataUnavailable) ∧
    (∀ kp : ℤ, check_kpoint_index arr kp = check_band_index arr kp) := by
  refine ⟨?_, ?_, ?_, ?_⟩
  · intro hb
    have hlt : arr.findIdx (fun x => x == b) < arr.length :=
      List.findIdx_lt_length_of_exists ⟨b, hb, by simp⟩
    refine ⟨arr.findIdx (fun x => x == b), ?_, ?_, ?_⟩
    · unfold check_band_index
      rw [if_pos hb]
    · have hget := @List.findIdx_getElem ℤ (fun x => x == b) arr hlt
      rw [List.getElem?_eq_getElem hlt]
      simp only [beq_iff_eq] at hget
      simp [hget]
    · intro q hq
      have hql : q < arr.length := lt_trans hq hlt
      have hne := List.not_of_lt_findIdx hq
      rw [List.getElem?_eq_getElem hql]
      simp only [beq_eq_false_iff_ne, ne_eq] at hne
      simp [hne]
  · intro hb h0
    unfold check_band_index
    rw [if_neg hb, if_pos h0]
  · intro hb h0
    unfold check_band_index
    rw [if_neg hb, if_neg h0]
  · intro kp
    unfold check_band_index check_kpoint_index
    rfl

/-- Witness for C7 exercising all three resolution paths. -/
theorem band_kpoint_index_resolution_witness :
    (∃ p, check_band_index [2, 0] 2 = .ok (p, false) ∧
        ([2, 0] : List ℤ)[p]? = some 2 ∧ ∀ q < p, ([2, 0] : List ℤ)[q]? ≠ some 2) ∧
    check_band_index [2, 0] 7 = .ok (0, true) ∧
    check_band_index [3] 7 = .error .dataUnavailable :=
  ⟨(band_kpoint_index_resolution [2, 0] 2).1 (by simp),
   (band_kpoint_index_resolution [2, 0] 7).2.1 (by simp) (by simp),
   (band_kpoint_index_resolution [3] 7).2.2.1 (by simp) (by simp)⟩

/-- Concrete dataset refuting C8 as stated: the bands array contains 0 at
position 1, not at position 0. -/
def dC8 : VaspData where
  nx := 1
  ny := 1
  nz := 1
  nspin := 1
  parchg := fun _ _ _ _ b _ => if b = 0 then 5 else 7
  bands := [2, 0]
  kpoints := [0]
  lv := fun _ _ => 0
  maxZ := 0
  minZ := 0
  cellVolume := 1

/-- C8 as stated is false: on a non-polarized volume whose bands array is
`[2, 0]` (which contains index 0), `to_array 0 0 "total"` returns the slice
at band position 1 (the position of label 0), not at band position 0. -/
theorem to_array_round_trip_counterexample :
    (to_array dC8 0 0 "total").map (fun chg => chg 0 0 0) = .ok (7 : ℚ) ∧
    dC8.parchg 0 0 0 0 0 0 = 5 ∧ ((7 : ℚ) ≠ 5) := by
  refine ⟨rfl, rfl, by norm_num⟩

/-- C8 (amended): on a non-polarized volume whose bands and kpoints arrays
contain index 0, `to_array (band := 0) (kpoint := 0) (spin := "total")`
returns exactly the stored channel-0 slice at the positions of label 0
within the bands and kpoints arrays, with no arithmetic transformation. -/
theorem to_array_round_trip (d : VaspData) (hsp : ¬ spinPolarized d)
    (hb : (0 : ℤ) ∈ d.bands) (hk : (0 : ℤ) ∈ d.kpoints) :
    to_array d 0 0 "total" =
      .ok (fun x y z => d.parchg x y z 0 (d.bands.findIdx (fun v => v == 0))
        (d.kpoints.findIdx (fun v => v == 0))) := by
  have hcb : check_band_index d.bands 0 =
      .ok (d.bands.findIdx (fun v => v == 0), false) := by
    unfold check_band_index
    rw [if_pos hb]
  have hck : check_kpoint_index d.kpoints 0 =
      .ok (d.kpoints.findIdx (fun v => v == 0), false) := by
    unfold check_kpoint_index
    rw [if_pos hk]
  simp only [to_array, hcb, hck, hsp, if_false, ite_false]

/-- Witness for the amended C8 at a concrete dataset. -/
theorem to_array_round_trip_witness :
    to_array dC8 0 0 "total" =
      .ok (fun x y z => dC8.parchg x y z 0 (dC8.bands.findIdx (fun v => v == 0))
        (dC8.kpoints.findIdx (fun v => v == 0))) :=
  to_array_round_trip dC8 (by simp [dC8, spinPolarized]) (by simp [dC8])
    (by simp [dC8])

/-- Unrecognized spin label used in the C9 theorems. -/
def bad_spin : String := "banana"

/-- Spin-polarized dataset for the C9 witness. -/
def dC9 : VaspData where
  nx := 1
  ny := 1
  nz := 1
  nspin := 2
  parchg := fun _ _ _ _ _ _ => 5
  bands := [0]
  kpoints := [0]
  lv := fun _ _ => 0
  maxZ := 0
  minZ := 0
  cellVolume := 1

/-- Non-polarized dataset refuting C9 as stated. -/
def dC9b : VaspData where
  nx := 1
  ny := 1
  nz := 1
  nspin := 1
  parchg := fun _ _ _ _ _ _ => 5
  bands := [0]
  kpoints := [0]
  lv := fun _ _ => 0
  maxZ := 0
  minZ := 0
  cellVolume := 1

/-- C9 as stated is false: on a non-spin-polarized volume the spin label is
ignored entirely, so the unrecognized label "banana" still returns data
(here the stored value 5) instead of failing. -/
theorem invalid_spin_selection_counterexample :
    (to_array dC9b 0 0 bad_spin).map (fun chg => chg 0 0 0) = .ok (5 : ℚ) := rfl

/-- C9 (amended): for a spin-polarized volume, any spin label outside
{both, up, down} makes `to_array` fail with `InvalidSelection` (once the
band and k-point indices resolve); a non-polarized volume ignores the spin
label and returns channel-0 data. -/
theorem invalid_spin_selection (d : VaspData) (band kpoint : ℤ) (spin : String)
    (hb : band ∈ d.bands) (hk : kpoint ∈ d.kpoints)
    (hs1 : spin ≠ "both") (hs2 : spin ≠ "up") (hs3 : spin ≠ "down") :
    (spinPolarized d → to_array d band kpoint spin = .error .invalidSelection) ∧
    (¬ spinPolarized d → ∃ chg, to_array d band kpoint spin = .ok chg) := by
  have hcb : check_band_index d.bands band =
      .ok (d.bands.findIdx (fun v => v == band), false) := by
    unfold check_band_index
    rw [if_pos hb]
  have hck : check_kpoint_index d.kpoints kpoint =
      .ok (d.kpoints.findIdx (fun v => v == kpoint), false) := by
    unfold check_kpoint_index
    rw [if_pos hk]
  constructor
  · intro hsp
    simp only [to_array, hcb, hck, if_neg hs1, if_neg hs2, if_neg hs3]
    rw [if_pos hsp]
  · intro hsp
    refine ⟨fun x y z => d.parchg x y z 0 (d.bands.findIdx (fun v => v == band))
      (d.kpoints.findIdx (fun v => v == kpoint)), ?_⟩
    simp only [to_array, hcb, hck, hsp, if_false, ite_false]

/-- Witness for the amended C9 at a concrete polarized dataset. -/
theorem invalid_spin_selection_witness :
    (spinPolarized dC9 → to_array dC9 0 0 bad_spin = .error .invalidSelection) ∧
    (¬ spinPolarized dC9 → ∃ chg, to_array dC9 0 0 bad_spin = .ok chg) :=
  invalid_spin_selection dC9 0 0 bad_spin (by simp [dC9]) (by simp [dC9])
    (by simp [bad_spin]) (by simp [bad_spin]) (by simp [bad_spin])

/-- C1: for every lateral grid point, with `z_start` the argmin of the
xy-averaged, 1-D-smoothed density, the constant-current scan samples the
interpolated column at `z_start, z_start - 1/f, ...` (descending toward
index 0, which is excluded) and records the first sampled index whose
interpolated density reaches the target current — the last sampled index
when none does (boundary clamp, not an error). -/
theorem constant_current_first_crossing
    (nx ny nz f zs : ℕ) (sm : ℕ → ℕ → ℕ → ℚ) (ker1 : Kernel1)
    (splineOf : (ℕ → ℚ) → ℚ → ℚ) (c : ℚ) (i j : ℕ)
    (_hzs : zs = min_of_z_charge nx ny nz ker1 sm) (hf : 0 < f) (hz : 0 < zs) :
    (∀ m, m < zs * f →
      (ccSamples zs f)[m]? = some ((zs : ℚ) - (m : ℚ) / (f : ℚ))) ∧
    ccScanPoint (splineOf fun z => sm i j z) c zs f =
      some (((ccSamples zs f).find?
          fun k => decide (c ≤ splineOf (fun z => sm i j z) k)).getD
        (lastD (ccSamples zs f))) := by
  constructor
  · intro m hm
    simp [ccSamples, List.getElem?_range hm]
  · exact ccLoop_eq_find _ c _ (ccSamples_ne_nil zs f hz hf)

/-- Witness for C1: a three-layer column whose smoothed profile is
`[2, 1, 0]`, so `z_start = 2`, with interpolation factor 1 and target 1/2. -/
theorem constant_current_first_crossing_witness :
    (∀ m : ℕ, m < 2 * 1 →
      (ccSamples 2 1)[m]? = some ((2 : ℚ) - (m : ℚ) / (1 : ℚ))) ∧
    ccScanPoint (fun k : ℚ => 2 - k) (1 / 2) 2 1 =
      some (((ccSamples 2 1).find?
          fun k => decide ((1 : ℚ) / 2 ≤ 2 - k)).getD
        (lastD (ccSamples 2 1))) := by
  have h := constant_current_first_crossing 1 1 3 1 2
    (fun _ _ w => if w = 0 then 2 else if w = 1 then 1 else 0) kerId1
    (fun _ k => 2 - k) (1 / 2) 0 0
    (by
      have hr : List.range 3 = [0, 1, 2] := rfl
      simp [min_of_z_charge, hr, smooth1d, xyMean, kerId1, wrapIdx,
        Finset.sum_range_one, argminQ, argminAux])
    (by norm_num) (by norm_num)
  exact_mod_cast h

/-- C6 as stated is false: for the antitone interpolant `2 - k` (interpolating
the column whose smoothed profile is `[2, 1, 0]`, so `z_start = 2`) and
currents `0 ≤ 1`, the scan records index 2 for current 0 but index 1 for
current 1 — the value for the larger current is smaller, not larger. -/
theorem constant_current_monotone_counterexample :
    Antitone (fun k : ℚ => 2 - k) ∧
    min_of_z_charge 1 1 3 kerId1
      (fun _ _ w => if w = 0 then 2 else if w = 1 then 1 else 0) = 2 ∧
    (0 : ℚ) ≤ 1 ∧
    ccScanPoint (fun k : ℚ => 2 - k) 0 2 1 = some 2 ∧
    ccScanPoint (fun k : ℚ => 2 - k) 1 2 1 = some 1 ∧
    ¬ ((1 : ℚ) ≥ 2) := by
  have hs : ccSamples 2 1 = [2, 1] := by
    have hr : List.range (2 * 1) = [0, 1] := rfl
    simp [ccSamples, hr]
    norm_num
  refine ⟨?_, ?_, by norm_num, ?_, ?_, by norm_num⟩
  · intro a b hab
    simp only
    linarith
  · have hr : List.range 3 = [0, 1, 2] := rfl
    simp [min_of_z_charge, hr, smooth1d, xyMean, kerId1, wrapIdx,
      Finset.sum_range_one, argminQ, argminAux]
  · rw [ccScanPoint, hs]
    simp only [ccLoop]
    norm_num
  · rw [ccScanPoint, hs]
    simp only [ccLoop]
    norm_num

/-- C6 (amended): raising the target current moves the per-point scan value
weakly downward (deeper into the slab, a smaller index), for every
interpolant — in particular for the monotonically decreasing ones of the
claim. -/
theorem constant_current_monotone (spl : ℚ → ℚ) (c1 c2 : ℚ) (hc : c1 ≤ c2)
    (zs f : ℕ) (r1 r2 : ℚ)
    (h1 : ccScanPoint spl c1 zs f = some r1)
    (h2 : ccScanPoint spl c2 zs f = some r2) : r2 ≤ r1 :=
  ccLoop_mono spl c1 c2 hc (ccSamples zs f) (ccSamples_pairwise zs f) r1 r2 h1 h2

/-- Witness for the amended C6 at the interpolant `2 - k`. -/
theorem constant_current_monotone_witness :
    (0 : ℚ) ≤ 1 ∧ (1 : ℚ) ≤ 2 := by
  have hs : ccSamples 2 1 = [2, 1] := by
    have hr : List.range (2 * 1) = [0, 1] := rfl
    simp [ccSamples, hr]
    norm_num
  refine ⟨by norm_num, ?_⟩
  refine constant_current_monotone (fun k : ℚ => 2 - k) 0 1 (by norm_num) 2 1 2 1 ?_ ?_
  · rw [ccScanPoint, hs]
    simp only [ccLoop]
    norm_num
  · rw [ccScanPoint, hs]
    simp only [ccLoop]
    norm_num

/-- C10: when the xy-averaged, 1-D-smoothed density attains its minimum at
z-index 0, the arange sample list is empty, the inner loop body never runs,
`k` is never bound, and constant-current `to_stm` fails (the `NameError`)
instead of returning scan data. -/
theorem constant_current_zstart_zero_name_error
    (d : VaspData) (ker : Kernel3) (ker1 : Kernel1)
    (splineOf : (ℕ → ℚ) → ℚ → ℚ) (c : ℚ) (f : ℕ) (spin : String)
    (sm : ℕ → ℕ → ℕ → ℚ) (hx : 0 < d.nx) (hy : 0 < d.ny)
    (hsm : get_stm_data d spin ker = .ok sm)
    (hmin : min_of_z_charge d.nx d.ny d.nz ker1 sm = 0) :
    constant_current_stm d ker ker1 splineOf c f spin = .error .nameError := by
  have hempty : ccSamples 0 f = [] := by
    simp [ccSamples]
  have hpoint : ccScanPoint (splineOf fun z => sm 0 0 z) c 0 f = none := by
    rw [ccScanPoint, hempty]
    rfl
  have hscan : constant_current_scan d.nx d.ny
      (fun i j => splineOf fun z => sm i j z) c 0 f = none := by
    unfold constant_current_scan
    rw [if_neg]
    intro hall
    have h00 := hall 0 hx 0 hy
    rw [hpoint] at h00
    exact absurd h00 (by simp)
  simp only [constant_current_stm, hsm, hmin, hscan]

/-- Dataset for the C10 witness: a single grid point, so the z-profile has
one entry and its argmin is 0. -/
def dC10 : VaspData where
  nx := 1
  ny := 1
  nz := 1
  nspin := 1
  parchg := fun _ _ _ _ _ _ => 1
  bands := [0]
  kpoints := [0]
  lv := fun _ _ => 0
  maxZ := 0
  minZ := 0
  cellVolume := 1

/-- Witness for C10 at a concrete dataset. -/
theorem constant_current_zstart_zero_name_error_witness :
    constant_current_stm dC10 kerId3 kerId1 (fun _ k => k) 1 10 spin_both =
      .error .nameError :=
  constant_current_zstart_zero_name_error dC10 kerId3 kerId1 (fun _ k => k) 1 10
    spin_both _ (by norm_num [dC10]) (by norm_num [dC10])
    (get_stm_data_ok dC10 kerId3 (by simp [dC10]) (by simp [dC10]))
    (by rfl)

/-- Sum of a kernel-weighted constant. -/
theorem list_sum_map_mul_const (l : Kernel3) (v : ℚ) :
    (l.map fun e => e.2 * v).sum = (l.map Prod.snd).sum * v := by
  induction l with
  | nil => simp
  | cons e t ih => simp [List.map_cons, List.sum_cons, ih, add_mul]

/-- Wrap-mode convolution with a normalized kernel preserves constants. -/
theorem smooth_stm_data_const (nx ny nz : ℕ) (ker : Kernel3)
    (data : ℕ → ℕ → ℕ → ℚ) (v : ℚ) (hdata : ∀ x y z, data x y z = v)
    (hker : (ker.map Prod.snd).sum = 1) :
    ∀ x y z, smooth_stm_data nx ny nz ker data x y z = v := by
  intro x y z
  unfold smooth_stm_data
  have hmap : (ker.map fun e =>
      e.2 * data (wrapIdx nx x e.1.1) (wrapIdx ny y e.1.2.1) (wrapIdx nz z e.1.2.2))
      = ker.map fun e => e.2 * v := by
    apply List.map_congr_left
    intro e _
    rw [hdata]
  rw [hmap, list_sum_map_mul_const, hker, one_mul]

/-- Dataset refuting C4 as stated: `height / out_of_plane_length * nz`
equals 19/10 = 1.9, which truncates to 1 but rounds to 2; the stored
density equals the z-index, so the two candidate slices differ. -/
def dC4 : VaspData where
  nx := 1
  ny := 1
  nz := 19
  nspin := 1
  parchg := fun _ _ z _ _ _ => (z : ℚ)
  bands := [0]
  kpoints := [0]
  lv := fun i j => if i = 2 ∧ j = 2 then 10 else 0
  maxZ := 0
  minZ := 0
  cellVolume := 1 / 19

/-- C4 as stated is false: the constant-height scan slices at the truncated
index `int(1.9) = 1` (output value 1), not at `round(1.9) = 2` (which would
give output value 2). -/
theorem constant_height_index_rounding_counterexample :
    (to_stm_constant_height dC4 1 spin_both kerId3 1).map (fun s => s 0 0)
      = .ok (1 : ℚ) ∧
    (get_stm_data dC4 spin_both kerId3).map
      (fun sm => sm 0 0 (round (((1 : ℚ) + dC4.maxZ) / dC4.lv 2 2 *
        (dC4.nz : ℚ))).toNat) = .ok (2 : ℚ) ∧
    ((1 : ℚ) ≠ 2) := by
  have hb : (0 : ℤ) ∈ dC4.bands := by simp [dC4]
  have hk : (0 : ℤ) ∈ dC4.kpoints := by simp [dC4]
  have hsm := get_stm_data_ok dC4 kerId3 hb hk
  have hzo : check_z_orth dC4.lv = .ok () := by simp [check_z_orth, dC4]
  have hth : check_tip_height dC4 1 = .ok () := by
    norm_num [check_tip_height, estimate_vacuum, dC4]
  have hval1 : smooth_stm_data dC4.nx dC4.ny dC4.nz kerId3 (correct_units dC4
      (fun x y z => dC4.parchg x y z 0 (dC4.bands.findIdx (fun v => v == 0))
        (dC4.kpoints.findIdx (fun v => v == 0)))) 0 0 1 = 1 := by
    norm_num [smooth_stm_data, correct_units, wrapIdx, kerId3, dC4]
  have hval2 : smooth_stm_data dC4.nx dC4.ny dC4.nz kerId3 (correct_units dC4
      (fun x y z => dC4.parchg x y z 0 (dC4.bands.findIdx (fun v => v == 0))
        (dC4.kpoints.findIdx (fun v => v == 0)))) 0 0 2 = 2 := by
    norm_num [smooth_stm_data, correct_units, wrapIdx, kerId3, dC4, show Int.toNat 2 = 2 from rfl]
  have hidxZ : z_index_for_height dC4 (1 + dC4.maxZ) = 1 := by
    norm_num [z_index_for_height, ratTrunc, dC4]
  have hnp : npIndex dC4.nz (z_index_for_height dC4 (1 + dC4.maxZ)) = .ok 1 := by
    rw [hidxZ]
    norm_num [npIndex, dC4, show Int.toNat 1 = 1 from rfl]
  have hround : (round (((1 : ℚ) + dC4.maxZ) / dC4.lv 2 2 * (dC4.nz : ℚ))).toNat
      = 2 := by
    norm_num [dC4, round_eq, show Int.toNat 2 = 2 from rfl]
  refine ⟨?_, ?_, by norm_num⟩
  · simp only [to_stm_constant_height, hzo, hth, hsm, Except.map,
      constant_height_stm, if_pos (show 0 < dC4.nx ∧ 0 < dC4.ny by norm_num [dC4]),
      hnp, hval1, mul_one]
  · rw [hround, hsm]
    simp only [Except.map, hval2]

/-- C4 (amended): on a constant-height scan whose lateral grid is nonempty,
the z-slice index is `int(height / out_of_plane_length * nz)` — truncation
toward zero, not rounding — with height = tip height + highest atomic z,
out-of-plane length the (2,2) lattice entry and nz the third grid
dimension; when that truncated index lies within the grid the smoothed
volume is sliced at it and scaled by the enhancement factor (an
out-of-range index instead raises the numpy IndexError). -/
theorem constant_height_index_truncation (d : VaspData) (ker : Kernel3)
    (tip enh : ℚ) (sm : ℕ → ℕ → ℕ → ℚ)
    (hz : check_z_orth d.lv = .ok ()) (ht : check_tip_height d tip = .ok ())
    (hsm : get_stm_data d spin_both ker = .ok sm)
    (hg : 0 < d.nx ∧ 0 < d.ny)
    (h0 : 0 ≤ z_index_for_height d (tip + d.maxZ))
    (hlt : z_index_for_height d (tip + d.maxZ) < (d.nz : ℤ)) :
    to_stm_constant_height d tip spin_both ker enh =
      .ok (fun i j =>
        sm i j (ratTrunc ((tip + d.maxZ) / d.lv 2 2 * (d.nz : ℚ))).toNat * enh) :=
  to_stm_constant_height_ok d ker tip enh sm hz ht hsm hg h0 hlt

/-- Witness for the amended C4 at the concrete dataset. -/
theorem constant_height_index_truncation_witness :
    to_stm_constant_height dC4 1 spin_both kerId3 1 =
      .ok (fun i j =>
        smooth_stm_data dC4.nx dC4.ny dC4.nz kerId3 (correct_units dC4
          (fun x y z => dC4.parchg x y z 0 (dC4.bands.findIdx (fun v => v == 0))
            (dC4.kpoints.findIdx (fun v => v == 0)))) i j
          (ratTrunc ((1 + dC4.maxZ) / dC4.lv 2 2 * (dC4.nz : ℚ))).toNat * 1) :=
  constant_height_index_truncation dC4 kerId3 1 1 _
    (by simp [check_z_orth, dC4])
    (by norm_num [check_tip_height, estimate_vacuum, dC4])
    (get_stm_data_ok dC4 kerId3 (by simp [dC4]) (by simp [dC4]))
    (by norm_num [dC4])
    (by norm_num [z_index_for_height, ratTrunc, dC4])
    (by norm_num [z_index_for_height, ratTrunc, dC4])

/-- Dataset refuting C5 as stated: 2×2×2 grid with unit cell volume, so the
unit correction divides the uniform density 1 by 8. -/
def dC5 : VaspData where
  nx := 2
  ny := 2
  nz := 2
  nspin := 1
  parchg := fun _ _ _ _ _ _ => 1
  bands := [0]
  kpoints := [0]
  lv := fun i j => if i = j then 1 else 0
  maxZ := 0
  minZ := 0
  cellVolume := 1

/-- C5 as stated is false: a uniform density of value 1 with enhancement
factor 1000 yields the constant output 125 = 1·1000/8, not 1·1000 — the
unit correction divides by grid-point count × cell volume first. -/
theorem uniform_constant_height_counterexample :
    (to_stm_constant_height dC5 0 spin_both kerId3 1000).map (fun s => s 0 0)
      = .ok (125 : ℚ) ∧ ((125 : ℚ) ≠ 1 * 1000) := by
  have hsm := get_stm_data_ok dC5 kerId3 (by simp [dC5]) (by simp [dC5])
  have hzo : check_z_orth dC5.lv = .ok () := by simp [check_z_orth, dC5]
  have hth : check_tip_height dC5 0 = .ok () := by
    norm_num [check_tip_height, estimate_vacuum, dC5]
  have hidxZ : z_index_for_height dC5 (0 + dC5.maxZ) = 0 := by
    norm_num [z_index_for_height, ratTrunc, dC5]
  have hnp : npIndex dC5.nz (z_index_for_height dC5 (0 + dC5.maxZ)) = .ok 0 := by
    rw [hidxZ]
    norm_num [npIndex, dC5, show Int.toNat 0 = 0 from rfl]
  have hval : smooth_stm_data dC5.nx dC5.ny dC5.nz kerId3 (correct_units dC5
      (fun x y z => dC5.parchg x y z 0 (dC5.bands.findIdx (fun v => v == 0))
        (dC5.kpoints.findIdx (fun v => v == 0)))) 0 0 0 = 1 / 8 := by
    norm_num [smooth_stm_data, correct_units, wrapIdx, kerId3, dC5]
  refine ⟨?_, by norm_num⟩
  simp only [to_stm_constant_height, hzo, hth, hsm, Except.map,
    constant_height_stm, if_pos (show 0 < dC5.nx ∧ 0 < dC5.ny by norm_num [dC5]),
    hnp, hval]
  norm_num

/-- C5 (amended): for a spatially uniform input density of value v, a
normalized smoothing kernel, a nonempty lateral grid and a z-slice index
within the grid, the constant-height scan output is uniform and every entry
equals v · enhancement_factor / (grid-point count × cell volume): the unit
correction divides by that product before smoothing and slicing. -/
theorem uniform_constant_height (d : VaspData) (ker : Kernel3) (tip enh v : ℚ)
    (hz : check_z_orth d.lv = .ok ()) (ht : check_tip_height d tip = .ok ())
    (hb : (0 : ℤ) ∈ d.bands) (hk : (0 : ℤ) ∈ d.kpoints)
    (hu : ∀ x y z s b kp, d.parchg x y z s b kp = v)
    (hker : (ker.map Prod.snd).sum = 1)
    (hg : 0 < d.nx ∧ 0 < d.ny)
    (h0 : 0 ≤ z_index_for_height d (tip + d.maxZ))
    (hlt : z_index_for_height d (tip + d.maxZ) < (d.nz : ℤ)) :
    ∃ scan, to_stm_constant_height d tip spin_both ker enh = .ok scan ∧
      ∀ i j, scan i j = v / ((d.nx * d.ny * d.nz : ℚ) * d.cellVolume) * enh := by
  have hsm := get_stm_data_ok d ker hb hk
  have hcu : ∀ x y z, correct_units d
      (fun x y z => d.parchg x y z 0 (d.bands.findIdx (fun w => w == 0))
        (d.kpoints.findIdx (fun w => w == 0))) x y z
      = v / ((d.nx * d.ny * d.nz : ℚ) * d.cellVolume) := by
    intro x y z
    simp only [correct_units, hu]
  have hconst := smooth_stm_data_const d.nx d.ny d.nz ker _ _ hcu hker
  refine ⟨_, to_stm_constant_height_ok d ker tip enh _ hz ht hsm hg h0 hlt, ?_⟩
  intro i j
  simp only [hconst]

/-- Witness for the amended C5 at the concrete dataset. -/
theorem uniform_constant_height_witness :
    ∃ scan, to_stm_constant_height dC5 0 spin_both kerId3 1000 = .ok scan ∧
      ∀ i j, scan i j = 1 / ((dC5.nx * dC5.ny * dC5.nz : ℚ) * dC5.cellVolume) * 1000 :=
  uniform_constant_height dC5 kerId3 0 1000 1
    (by simp [check_z_orth, dC5])
    (by norm_num [check_tip_height, estimate_vacuum, dC5])
    (by simp [dC5]) (by simp [dC5])
    (fun _ _ _ _ _ _ => rfl)
    (by simp [kerId3])
    (by norm_num [dC5])
    (by norm_num [z_index_for_height, ratTrunc, dC5])
    (by norm_num [z_index_for_height, ratTrunc, dC5])

end PartialChargeStm
